import Mathlib

/-!
Verification of the Smart Assistant agent (src/Google_search_agent.py).

The development shallowly embeds the parts of the program the claims are
about: the JSON layer (Python `json.loads` / `json.dumps`), the two tool
functions `get_weather` and `google_search`, the tool registry
`available_tools`, and the dialogue loop `process_chat`.  External HTTP
traffic and environment variables are modelled as explicit oracles
(`HttpWorld`, `EnvVars`); the LLM completion endpoint is an oracle from the
current conversation to a reply string, and the `while True` loop is run on
explicit fuel.  Python exceptions (KeyError, AttributeError, TypeError,
JSONDecodeError) are modelled as `Except` / explicit crash outcomes.
-/

set_option maxHeartbeats 1000000

namespace Agent

/-! ## Characters used in JSON syntax

Named constants for the delimiter characters, so they can be shared between
the serializer and the parser. -/

def quoteC : Char := Char.ofNat 34

def bslashC : Char := Char.ofNat 92

def lbraceC : Char := Char.ofNat 123

def rbraceC : Char := Char.ofNat 125

def aposC : Char := Char.ofNat 39

/-! ## JSON values

`JValue` is the result type of Python `json.loads`: `null`/`None`, booleans,
numbers, strings, lists and dicts.  Numbers are kept at the lexeme level
(the character span matched by the scanner); no claim depends on numeric
arithmetic.  Dicts are association lists in key insertion order with unique
keys, exactly the state of a Python dict built by the JSON decoder. -/

inductive JValue where
  | null
  | bool (b : Bool)
  | num (lexeme : String)
  | str (s : String)
  | arr (elems : List JValue)
  | obj (members : List (String × JValue))
deriving Repr

/-- Dict update as performed by the JSON decoder for a repeated key: the
first occurrence keeps its position, the value is overwritten; a fresh key
is appended. -/
def objInsert : List (String × JValue) → String → JValue → List (String × JValue)
  | [], k, v => [(k, v)]
  | (k0, v0) :: rest, k, v =>
    if k0 = k then (k0, v) :: rest else (k0, v0) :: objInsert rest k v

/-- Dict lookup, `d[k]` flavour: `none` models a raised KeyError. -/
def dictGet : List (String × JValue) → String → Option JValue
  | [], _ => none
  | (k0, v0) :: rest, k => if k0 = k then some v0 else dictGet rest k

/-- Dict lookup, `d.get(k)` flavour: a missing key yields Python `None`,
which is the same value as JSON `null`. -/
def pyGet (kvs : List (String × JValue)) (k : String) : JValue :=
  (dictGet kvs k).getD .null

/-! ## Serializer: Python `json.dumps`

Default separators (`", "` between items, `": "` after a key).  String
escaping follows the encoder: `\"`, `\\`, `\b`, `\f`, `\n`, `\r`, `\t`, and
`\u00XX` for the remaining control characters; other characters are emitted
verbatim (the `ensure_ascii` pass, which additionally escapes non-ASCII
characters, is not modelled — it changes only the byte form, not the parsed
value, and no claim inspects the escaped form of a non-ASCII character). -/

def hexDigitChar (n : Nat) : Char :=
  if n < 10 then Char.ofNat (48 + n) else Char.ofNat (87 + n)

def jsonEscapeChar (c : Char) : List Char :=
  if c = quoteC then [bslashC, quoteC]
  else if c = bslashC then [bslashC, bslashC]
  else if c = '\n' then [bslashC, 'n']
  else if c = '\r' then [bslashC, 'r']
  else if c = '\t' then [bslashC, 't']
  else if c.toNat = 8 then [bslashC, 'b']
  else if c.toNat = 12 then [bslashC, 'f']
  else if c.toNat < 32 then
    [bslashC, 'u', '0', '0', hexDigitChar (c.toNat / 16), hexDigitChar (c.toNat % 16)]
  else [c]

def jsonEscape : List Char → List Char
  | [] => []
  | c :: cs => jsonEscapeChar c ++ jsonEscape cs

/-- Serialized form of a string: quote, escaped body, quote. -/
def dumpsStr (s : String) : List Char :=
  quoteC :: (jsonEscape s.data ++ [quoteC])

mutual

def dumpsV : JValue → List Char
  | .null => ("null" : String).data
  | .bool b => (if b then ("true" : String) else ("false" : String)).data
  | .num lexeme => lexeme.data
  | .str s => dumpsStr s
  | .arr es => '[' :: (dumpsElems es ++ [']'])
  | .obj kvs => lbraceC :: (dumpsMembers kvs ++ [rbraceC])

def dumpsElems : List JValue → List Char
  | [] => []
  | [v] => dumpsV v
  | v :: vs => dumpsV v ++ (',' :: ' ' :: dumpsElems vs)

def dumpsMembers : List (String × JValue) → List Char
  | [] => []
  | [(k, v)] => dumpsStr k ++ (':' :: ' ' :: dumpsV v)
  | (k, v) :: kvs => dumpsStr k ++ (':' :: ' ' :: dumpsV v) ++ (',' :: ' ' :: dumpsMembers kvs)

end

/-- Python `json.dumps` on a decoded value. -/
def jsonDumps (v : JValue) : String :=
  String.mk (dumpsV v)

/-! ## Parser: Python `json.loads`

A recursive-descent scanner over the character list, mirroring the CPython
decoder: the four JSON whitespace characters are skipped between tokens,
strings are strict (a raw control character inside a string is an error),
numbers follow the `-?(0|[1-9]\d*)(\.\d+)?([eE][+-]?\d+)?` regex, and the
non-standard constants `NaN`, `Infinity` and `-Infinity` are accepted.
Compound values run on fuel; `jsonLoads` supplies `length + 1` fuel, which
cannot be exhausted because every recursive step first consumes at least one
character.  One representability caveat: a `\uXXXX` escape denoting a lone
UTF-16 surrogate (which CPython accepts, producing a degenerate `str` that
cannot occur in well-formed data) has no `Char` counterpart and is treated
as a parse error; properly paired surrogate escapes are combined as in
CPython. -/

def isJsonWs (c : Char) : Bool :=
  c = ' ' || c = '\t' || c = '\n' || c = '\r'

def skipWs : List Char → List Char
  | [] => []
  | c :: cs => if isJsonWs c then skipWs cs else c :: cs

def hexDigitVal (c : Char) : Option Nat :=
  if 48 ≤ c.toNat ∧ c.toNat ≤ 57 then some (c.toNat - 48)
  else if 97 ≤ c.toNat ∧ c.toNat ≤ 102 then some (c.toNat - 87)
  else if 65 ≤ c.toNat ∧ c.toNat ≤ 70 then some (c.toNat - 55)
  else none

/-- Four hex digits, as the value they denote. -/
def hex4Val (h1 h2 h3 h4 : Char) : Option Nat :=
  match hexDigitVal h1, hexDigitVal h2, hexDigitVal h3, hexDigitVal h4 with
  | some a, some b, some c, some d => some (((a * 16 + b) * 16 + c) * 16 + d)
  | _, _, _, _ => none

/-- The single-character escapes of the JSON grammar. -/
def escCharDecode (e : Char) : Option Char :=
  if e = quoteC then some quoteC
  else if e = bslashC then some bslashC
  else if e = '/' then some ('/')
  else if e = 'b' then some (Char.ofNat 8)
  else if e = 'f' then some (Char.ofNat 12)
  else if e = 'n' then some ('\n')
  else if e = 'r' then some ('\r')
  else if e = 't' then some ('\t')
  else none

/-- Parse the body of a string literal (the opening quote already consumed),
returning the decoded characters and the remaining input.  A `\u` escape
denoting a high UTF-16 surrogate must be followed by a `\u`-escaped low
surrogate; the pair combines as in CPython.  The recursion runs on fuel;
every step first consumes at least one character, so the `length + 1` fuel
supplied at the call sites cannot run out. -/
def parseStrBody : Nat → List Char → Option (List Char × List Char)
  | 0, _ => none
  | fuel + 1, cs =>
    match cs with
    | [] => none
    | c :: rest =>
      if c = quoteC then some ([], rest)
      else if c = bslashC then
        match rest with
        | [] => none
        | e :: r =>
          if e = 'u' then
            match r with
            | h1 :: h2 :: h3 :: h4 :: r2 =>
              match hex4Val h1 h2 h3 h4 with
              | none => none
              | some v =>
                if 55296 ≤ v ∧ v ≤ 56319 then
                  match r2 with
                  | b1 :: u2 :: g1 :: g2 :: g3 :: g4 :: r3 =>
                    if b1 = bslashC ∧ u2 = 'u' then
                      match hex4Val g1 g2 g3 g4 with
                      | some w =>
                        if 56320 ≤ w ∧ w ≤ 57343 then
                          (parseStrBody fuel r3).map
                            (fun p =>
                              (Char.ofNat (65536 + (v - 55296) * 1024 + (w - 56320)) :: p.1, p.2))
                        else none
                      | none => none
                    else none
                  | _ => none
                else if 56320 ≤ v ∧ v ≤ 57343 then none
                else (parseStrBody fuel r2).map (fun p => (Char.ofNat v :: p.1, p.2))
            | _ => none
          else
            match escCharDecode e with
            | some ch => (parseStrBody fuel r).map (fun p => (ch :: p.1, p.2))
            | none => none
      else if c.toNat < 32 then none
      else (parseStrBody fuel rest).map (fun p => (c :: p.1, p.2))

def takeDigits : List Char → List Char × List Char
  | [] => ([], [])
  | c :: cs =>
    if c.isDigit then
      let p := takeDigits cs
      (c :: p.1, p.2)
    else ([], c :: cs)

/-- Integer part of a JSON number: `0`, or a nonzero digit followed by
digits. -/
def parseIntPart : List Char → Option (List Char × List Char)
  | [] => none
  | c :: cs =>
    if c = '0' then some (['0'], cs)
    else if c.isDigit then
      let p := takeDigits cs
      some (c :: p.1, p.2)
    else none

/-- Optional fraction part: consumed only when a dot with at least one digit
follows, as in the decoder regex. -/
def parseFracPart (cs : List Char) : List Char × List Char :=
  match cs with
  | c :: rest =>
    if c = '.' then
      match takeDigits rest with
      | ([], _) => ([], cs)
      | (ds, r) => ('.' :: ds, r)
    else ([], cs)
  | [] => ([], cs)

/-- Optional exponent part: consumed only when `e`/`E`, an optional sign and
at least one digit follow. -/
def parseExpPart (cs : List Char) : List Char × List Char :=
  match cs with
  | e :: rest =>
    if e = 'e' ∨ e = 'E' then
      match rest with
      | s :: rest2 =>
        if s = '+' ∨ s = '-' then
          match takeDigits rest2 with
          | ([], _) => ([], cs)
          | (ds, r) => (e :: s :: ds, r)
        else
          match takeDigits rest with
          | ([], _) => ([], cs)
          | (ds, r) => (e :: ds, r)
      | [] => ([], cs)
    else ([], cs)
  | [] => ([], cs)

def parseNumBody (cs : List Char) : Option (JValue × List Char) :=
  match parseIntPart cs with
  | none => none
  | some (ip, r1) =>
    let f := parseFracPart r1
    let e := parseExpPart f.2
    some (.num (String.mk (ip ++ f.1 ++ e.1)), e.2)

def parseNumber (cs : List Char) : Option (JValue × List Char) :=
  match cs with
  | '-' :: rest =>
    match parseNumBody rest with
    | none => none
    | some (.num lexeme, r) => some (.num (String.mk ('-' :: lexeme.data)), r)
    | some _ => none
  | _ => parseNumBody cs

/-- The scalar tokens: the literal constants (the standard three plus the
CPython extras) and numbers. -/
def parseScalar (cs : List Char) : Option (JValue × List Char) :=
  match cs with
  | 't' :: 'r' :: 'u' :: 'e' :: r => some (.bool true, r)
  | 'f' :: 'a' :: 'l' :: 's' :: 'e' :: r => some (.bool false, r)
  | 'n' :: 'u' :: 'l' :: 'l' :: r => some (.null, r)
  | 'N' :: 'a' :: 'N' :: r => some (.num (String.mk ['N', 'a', 'N']), r)
  | 'I' :: 'n' :: 'f' :: 'i' :: 'n' :: 'i' :: 't' :: 'y' :: r =>
    some (.num (String.mk ['I', 'n', 'f', 'i', 'n', 'i', 't', 'y']), r)
  | '-' :: 'I' :: 'n' :: 'f' :: 'i' :: 'n' :: 'i' :: 't' :: 'y' :: r =>
    some (.num (String.mk ['-', 'I', 'n', 'f', 'i', 'n', 'i', 't', 'y']), r)
  | cs2 => parseNumber cs2

mutual

def parseValue : Nat → List Char → Option (JValue × List Char)
  | 0, _ => none
  | fuel + 1, cs =>
    match skipWs cs with
    | [] => none
    | c :: rest =>
      if c = quoteC then
        (parseStrBody (rest.length + 1) rest).map (fun p => (.str (String.mk p.1), p.2))
      else if c = lbraceC then
        match skipWs rest with
        | [] => none
        | c2 :: rest2 =>
          if c2 = rbraceC then some (.obj [], rest2)
          else parseMembers fuel (c2 :: rest2) []
      else if c = '[' then
        match skipWs rest with
        | [] => none
        | c2 :: rest2 =>
          if c2 = ']' then some (.arr [], rest2)
          else parseElems fuel (c2 :: rest2) []
      else parseScalar (c :: rest)

/-- Members of an object, positioned at the first character of a key (not
whitespace, not a closing brace).  `acc` is the dict built so far. -/
def parseMembers : Nat → List Char → List (String × JValue) → Option (JValue × List Char)
  | 0, _, _ => none
  | fuel + 1, cs, acc =>
    match cs with
    | [] => none
    | c :: rest =>
      if c = quoteC then
        match parseStrBody (rest.length + 1) rest with
        | none => none
        | some (k, r1) =>
          match skipWs r1 with
          | [] => none
          | c3 :: r2 =>
            if c3 = ':' then
              match parseValue fuel r2 with
              | none => none
              | some (v, r3) =>
                let acc2 := objInsert acc (String.mk k) v
                match skipWs r3 with
                | [] => none
                | c5 :: r5 =>
                  if c5 = ',' then parseMembers fuel (skipWs r5) acc2
                  else if c5 = rbraceC then some (.obj acc2, r5)
                  else none
            else none
      else none

/-- Elements of an array, positioned at the first character of an element. -/
def parseElems : Nat → List Char → List JValue → Option (JValue × List Char)
  | 0, _, _ => none
  | fuel + 1, cs, acc =>
    match parseValue fuel cs with
    | none => none
    | some (v, r1) =>
      match skipWs r1 with
      | [] => none
      | c :: r2 =>
        if c = ',' then parseElems fuel r2 (acc ++ [v])
        else if c = ']' then some (.arr (acc ++ [v]), r2)
        else none

end

/-- Python `json.loads`: parse one value and require only whitespace after
it (anything else is the decoder's Extra data error). -/
def jsonLoads (s : String) : Option JValue :=
  match parseValue (s.data.length + 1) s.data with
  | some (v, rest) => if skipWs rest = [] then some v else none
  | none => none

/-! ## Python value stringification

Interpolating a value into an f-string applies `str()`: identity on
strings, `None`/`True`/`False` for the singletons, and `repr` recursively
inside containers.  `repr` of a string prefers single quotes, switching to
double quotes when the string contains a single quote but no double quote;
it escapes the backslash, the chosen quote, and control characters
(`\n`/`\r`/`\t` named, `\xXX` otherwise; CPython additionally escapes other
non-printable code points, which no claim exercises). -/

def pyReprStrChar (q : Char) (c : Char) : List Char :=
  if c = bslashC then [bslashC, bslashC]
  else if c = q then [bslashC, q]
  else if c = '\n' then [bslashC, 'n']
  else if c = '\r' then [bslashC, 'r']
  else if c = '\t' then [bslashC, 't']
  else if c.toNat < 32 ∨ c.toNat = 127 then
    [bslashC, 'x', hexDigitChar (c.toNat / 16), hexDigitChar (c.toNat % 16)]
  else [c]

def pyReprStr (s : String) : String :=
  let q := if s.data.contains aposC ∧ ¬ s.data.contains quoteC then quoteC else aposC
  String.mk (q :: ((s.data.map (pyReprStrChar q)).flatten ++ [q]))

mutual

def pyRepr : JValue → String
  | .null => "None"
  | .bool true => "True"
  | .bool false => "False"
  | .num lexeme => lexeme
  | .str s => pyReprStr s
  | .arr es => "[" ++ pyJoinReprs (", ") (pyReprList es) ++ "]"
  | .obj kvs => String.mk [lbraceC] ++ pyJoinReprs (", ") (pyReprMembers kvs) ++ String.mk [rbraceC]

def pyReprList : List JValue → List String
  | [] => []
  | v :: vs => pyRepr v :: pyReprList vs

def pyReprMembers : List (String × JValue) → List String
  | [] => []
  | (k, v) :: kvs => (pyReprStr k ++ (": ") ++ pyRepr v) :: pyReprMembers kvs

def pyJoinReprs (sep : String) : List String → String
  | [] => ""
  | [s] => s
  | s :: ss => s ++ sep ++ pyJoinReprs sep ss

end

/-- Python `str()` as applied by f-string interpolation. -/
def pyFstr : JValue → String
  | .str s => s
  | v => pyRepr v

/-! ## External world oracles -/

/-- One HTTP response as seen through the `requests` library: the fields the
program reads. -/
structure HttpResponse where
  status_code : Nat
  text : String

/-- The network, as an oracle from URL to response (`requests.get`).  The
spec treats the endpoints as opaque collaborators returning text. -/
def HttpWorld : Type := String → HttpResponse

/-- Process environment (`os.getenv`): absent variables give `None`. -/
def EnvVars : Type := String → Option String

/-- The Python exceptions the modelled code can raise. -/
inductive PyErr where
  | keyError
  | attributeError
  | typeError
  | jsonDecodeError
deriving DecidableEq, Repr

/-! ## Tool functions (source lines 13-32) -/

/-- Python `str.strip()` restricted to ASCII whitespace (the Unicode spaces
CPython also strips do not occur in any claim). -/
def pyIsSpace (c : Char) : Bool :=
  c = ' ' || c = '\t' || c = '\n' || c = '\r' || c.toNat = 11 || c.toNat = 12

def pyStrip (s : String) : String :=
  String.mk (((s.data.dropWhile pyIsSpace).reverse.dropWhile pyIsSpace).reverse)

def weatherUrl (city : String) : String :=
  ("https://wttr.in/") ++ city ++ ("?format=%C+%t")

/-- Tool 1, `get_weather` (lines 13-18): GET the weather endpoint; on
status 200 format the stripped body into a sentence, otherwise a fixed
failure message. -/
def get_weather (http : HttpWorld) (city : String) : String :=
  let response := http (weatherUrl city)
  if response.status_code = 200 then
    ("🌦️ The weather in **") ++ city ++ ("** is `") ++ pyStrip response.text ++ ("`.")
  else
    ("❌ Unable to fetch weather at the moment.")

def fstrOptStr : Option String → String
  | some s => s
  | none => "None"

def searchUrl (env : EnvVars) (query : String) : String :=
  ("https://www.googleapis.com/customsearch/v1?q=") ++ query ++ ("&key=") ++
    fstrOptStr (env ("GOOGLE_API_KEY")) ++ ("&cx=") ++ fstrOptStr (env ("GOOGLE_CSE_ID"))

/-- Python slicing `x[:3]` as applied to `data.get("items", [])`: lists are
truncated, strings yield their first characters (each later indexing raises
TypeError), every other value raises TypeError at the slice itself. -/
def sliceItems : JValue → Except PyErr (List JValue)
  | .arr es => .ok (es.take 3)
  | .str s => .ok ((s.data.take 3).map (fun c => .str (String.mk [c])))
  | _ => .error .typeError

/-- One result block: `item["title"]` / `item["link"]` raise KeyError when
missing, TypeError when the item is not a dict. -/
def fmtItem : JValue → Except PyErr String
  | .obj kvs =>
    match dictGet kvs ("title") with
    | none => .error .keyError
    | some t =>
      match dictGet kvs ("link") with
      | none => .error .keyError
      | some l => .ok (("🔹 **") ++ pyFstr t ++ ("**\n🔗 ") ++ pyFstr l)
  | _ => .error .typeError

def fmtItems : List JValue → Except PyErr (List String)
  | [] => .ok []
  | it :: its =>
    match fmtItem it with
    | .error e => .error e
    | .ok s =>
      match fmtItems its with
      | .error e => .error e
      | .ok ss => .ok (s :: ss)

/-- Python `sep.join(xs)`. -/
def pyJoin (sep : String) : List String → String
  | [] => ""
  | [s] => s
  | s :: ss => s ++ sep ++ pyJoin sep ss

/-- Tool 2, `google_search` (lines 21-32): GET the custom-search endpoint;
on status 200 decode the JSON body (`response.json()`, raising on an
invalid body), format up to the first three items, and join the blocks —
`"\n\n".join(results) or "No results found."` returns the fallback exactly
when the join is the empty (falsy) string.  On a non-200 status, a message
embedding the status code and body. -/
def google_search (env : EnvVars) (http : HttpWorld) (query : String) : Except PyErr String :=
  let response := http (searchUrl env query)
  if response.status_code = 200 then
    match jsonLoads response.text with
    | none => .error .jsonDecodeError
    | some data =>
      match data with
      | .obj kvs =>
        match sliceItems ((dictGet kvs ("items")).getD (.arr [])) with
        | .error e => .error e
        | .ok items =>
          match fmtItems items with
          | .error e => .error e
          | .ok results =>
            let joined := pyJoin ("\n\n") results
            .ok (if joined = "" then ("No results found.") else joined)
      | _ => .error .attributeError
  else
    .ok (("❌ Search failed: ") ++ toString response.status_code ++ (" - ") ++ response.text)

/-! ## Tool registry (source lines 35-44) -/

/-- One registry entry: the callable and its description.  The callable
receives the raw parsed value of the step's `input` field (Python passes it
unconverted; the tool's own f-strings apply `str()`). -/
structure ToolDesc where
  fn : JValue → Except PyErr String
  description : String

/-- The `available_tools` dict, for a given environment and network. -/
def available_tools (env : EnvVars) (http : HttpWorld) : List (String × ToolDesc) :=
  [(("get_weather"),
    ⟨fun v => .ok (get_weather http (pyFstr v)),
     ("Takes a city name and returns current weather.")⟩),
   (("google_search"),
    ⟨fun v => google_search env http (pyFstr v),
     ("Takes a query and returns top 3 Google search results.")⟩)]

def regGet : List (String × ToolDesc) → String → Option ToolDesc
  | [], _ => none
  | (k, d) :: rest, n => if k = n then some d else regGet rest n

/-! ## Conversation state and the dialogue loop (source lines 102-163) -/

inductive Role where
  | system
  | user
  | assistant
deriving DecidableEq, Repr

structure Message where
  role : Role
  content : String
deriving DecidableEq, Repr

/-- The notices the loop surfaces to the UI, in order.  Payloads carry the
interpolated content, the presentation wrappers being out of scope:
`parseErrorNotice` is the fixed `st.error` text, `planNotice c` is
`st.info` of the plan content, `observationNotice r` is `st.success` of the
tool output, `finalAnswer c` is the final-answer panel around the output
content, `unrecognizedStepNotice` the fixed `st.warning` text. -/
inductive UIEvent where
  | parseErrorNotice
  | planNotice (content : String)
  | observationNotice (content : String)
  | finalAnswer (content : String)
  | unrecognizedStepNotice
deriving DecidableEq, Repr

/-- How one iteration of the `while True` body ends: `cont` re-enters the
loop (a further LLM call), `stop` is `break`, `crash` is an unhandled
Python exception propagating out of `process_chat`. -/
inductive IterOutcome where
  | cont
  | stop
  | crash (e : PyErr)
deriving DecidableEq, Repr

structure IterResult where
  messages : List Message
  events : List UIEvent
  outcome : IterOutcome
deriving DecidableEq, Repr

/-- One iteration of the loop body (lines 116-158), given the reply text of
this iteration's LLM call.  Mirrors the source line by line: a JSON decode
failure appends the raw reply and breaks; otherwise the re-serialized value
is appended and the `step` field dispatched.  `parsed.get` on a non-dict
raises AttributeError; `parsed["content"]` in the plan and output branches
raises KeyError when absent; `tool_name in available_tools` raises
TypeError on an unhashable (list/dict) name and is False on other non-key
values, falling through silently. -/
def processIter (reg : List (String × ToolDesc)) (msgs : List Message) (reply : String) :
    IterResult :=
  match jsonLoads reply with
  | none =>
    ⟨msgs ++ [⟨.assistant, reply⟩], [.parseErrorNotice], .stop⟩
  | some parsed =>
    let msgs2 := msgs ++ [⟨.assistant, jsonDumps parsed⟩]
    match parsed with
    | .obj kvs =>
      match pyGet kvs ("step") with
      | .str t =>
        if t = "plan" then
          match dictGet kvs ("content") with
          | none => ⟨msgs2, [], .crash .keyError⟩
          | some c => ⟨msgs2, [.planNotice (pyFstr c)], .cont⟩
        else if t = "action" then
          match pyGet kvs ("function") with
          | .str f =>
            match regGet reg f with
            | some d =>
              match d.fn (pyGet kvs ("input")) with
              | .ok r =>
                ⟨msgs2 ++ [⟨.assistant,
                    jsonDumps (.obj [(("step"), .str ("observe")), (("content"), .str r)])⟩],
                 [.observationNotice r], .cont⟩
              | .error e => ⟨msgs2, [], .crash e⟩
            | none => ⟨msgs2, [], .cont⟩
          | .arr _ => ⟨msgs2, [], .crash .typeError⟩
          | .obj _ => ⟨msgs2, [], .crash .typeError⟩
          | _ => ⟨msgs2, [], .cont⟩
        else if t = "output" then
          match dictGet kvs ("content") with
          | none => ⟨msgs2, [], .crash .keyError⟩
          | some c => ⟨msgs2, [.finalAnswer (pyFstr c)], .stop⟩
        else ⟨msgs2, [.unrecognizedStepNotice], .stop⟩
      | _ => ⟨msgs2, [.unrecognizedStepNotice], .stop⟩
    | _ => ⟨msgs2, [], .crash .attributeError⟩

/-- How a whole `process_chat` run ends. -/
inductive RunOutcome where
  | finished
  | crashed (e : PyErr)
  | fuelOut
deriving DecidableEq, Repr

structure RunResult where
  messages : List Message
  events : List UIEvent
  calls : Nat
  outcome : RunOutcome
deriving DecidableEq, Repr

/-- The `process_chat` dialogue loop: repeatedly submit the conversation to
the LLM oracle and run one iteration on its reply, until the iteration
breaks or crashes.  `calls` counts LLM invocations performed.  The source
loop has no bound; `fuel` only truncates runs that would not terminate
(outcome `fuelOut`), it never alters a terminating run. -/
def processChat (reg : List (String × ToolDesc)) (llm : List Message → String) :
    Nat → List Message → RunResult
  | 0, msgs => ⟨msgs, [], 0, .fuelOut⟩
  | fuel + 1, msgs =>
    let r := processIter reg msgs (llm msgs)
    match r.outcome with
    | .cont =>
      let rest := processChat reg llm fuel r.messages
      ⟨rest.messages, r.events ++ rest.events, rest.calls + 1, rest.outcome⟩
    | .stop => ⟨r.messages, r.events, 1, .finished⟩
    | .crash e => ⟨r.messages, r.events, 1, .crashed e⟩

/-! ## The Step shape (spec section 3) -/

inductive StepTag where
  | plan
  | action
  | observe
  | output
deriving DecidableEq, Repr

def StepTag.toStr : StepTag → String
  | .plan => "plan"
  | .action => "action"
  | .observe => "observe"
  | .output => "output"

/-- The Step entity of the data model: a phase tag, a content string, and
optional tool name and input strings. -/
structure Step where
  step : StepTag
  content : String
  function : Option String
  input : Option String
deriving DecidableEq, Repr

def tagOfString (t : String) : Option StepTag :=
  if t = "plan" then some .plan
  else if t = "action" then some .action
  else if t = "observe" then some .observe
  else if t = "output" then some .output
  else none

/-- The dict a Step serializes through, keys in the shape's order, optional
fields omitted when absent. -/
def stepToJson (s : Step) : JValue :=
  .obj ([(("step"), .str s.step.toStr), (("content"), .str s.content)]
    ++ (match s.function with | none => [] | some f => [(("function"), .str f)])
    ++ (match s.input with | none => [] | some i => [(("input"), .str i)]))

/-- Read a Step back off a parsed JSON value: requires a dict whose `step`
is one of the four tags and whose `content` is a string, with `function`
and `input` strings when present. -/
def stepOfJValue : JValue → Option Step
  | .obj kvs =>
    match dictGet kvs ("step") with
    | some (.str t) =>
      match tagOfString t with
      | none => none
      | some tag =>
        match dictGet kvs ("content") with
        | some (.str c) =>
          match dictGet kvs ("function"), dictGet kvs ("input") with
          | none, none => some ⟨tag, c, none, none⟩
          | some (.str f), none => some ⟨tag, c, some f, none⟩
          | none, some (.str i) => some ⟨tag, c, none, some i⟩
          | some (.str f), some (.str i) => some ⟨tag, c, some f, some i⟩
          | _, _ => none
        | _ => none
    | _ => none
  | _ => none

/-- Decidable rendering of the invariant's side condition: the text is
valid JSON conforming to the Step shape. -/
def stepShapedB (s : String) : Bool :=
  match jsonLoads s with
  | some v => (stepOfJValue v).isSome
  | none => false

/-! ## Concrete worlds used to instantiate the theorems -/

/-- A network whose every response is status 200 with body `Sunny +25°C`
(scenario A of the spec). -/
def httpSunny : HttpWorld := fun _ => ⟨200, ("Sunny +25°C")⟩

/-- A network whose every response is status 404 (scenario C). -/
def http404 : HttpWorld := fun _ => ⟨404, ("Not Found")⟩

/-- A network returning the scenario A body with a trailing newline, as a
text endpoint typically does. -/
def httpSunnyNewline : HttpWorld := fun _ => ⟨200, ("Sunny +25°C\n")⟩

/-- A search endpooint response with an empty items list (scenario B). -/
def httpEmptyItems : HttpWorld := fun _ => ⟨200, ("\x7b\"items\": []\x7d")⟩

/-- An empty process environment. -/
def envNone : EnvVars := fun _ => none

/-- The registry as built at startup, over the scenario A network. -/
def regDemo : List (String × ToolDesc) := available_tools envNone httpSunny

def replyActionLahore : String :=
  "\x7b\"step\": \"action\", \"function\": \"get_weather\", \"input\": \"Lahore\"\x7d"

def replyOutputDone : String := "\x7b\"step\": \"output\", \"content\": \"done\"\x7d"

/-- An LLM oracle that requests the weather tool on the first call and then
answers. -/
def llmActionThenOutput : List Message → String := fun ms =>
  if ms.length = 0 then replyActionLahore else replyOutputDone

/-! ## C5 — get_weather on HTTP 200 -/

/-- C5 counterexample: when the weather body carries a trailing newline,
the returned sentence embeds the stripped body, so the raw response body
does not occur in the result at all — the claim's "embedding the raw
response body" fails.  (The claim's own Lahore instance, whose body has no
surrounding whitespace, does hold; see the amended theorem.) -/
theorem c5_counterexample :
    get_weather httpSunnyNewline ("Lahore") =
      ("🌦️ The weather in **Lahore** is `Sunny +25°C`.") ∧
    ¬ (("Sunny +25°C\n" : String).data <:+: (get_weather httpSunnyNewline ("Lahore")).data) :=
  ⟨rfl, by decide⟩

/-- C5 (amended): for every city string, when the weather endpoint responds
with HTTP 200, get_weather returns the formatted sentence embedding the
response body stripped of leading and trailing whitespace; for city Lahore
and body `Sunny +25°C` this is exactly the sentence the claim states. -/
theorem c5_weather_success (http : HttpWorld) (city body : String)
    (h : http (weatherUrl city) = ⟨200, body⟩) :
    get_weather http city =
      ("🌦️ The weather in **") ++ city ++ ("** is `") ++ pyStrip body ++ ("`.") := by
  simp [get_weather, h]

theorem c5_witness :
    get_weather httpSunny ("Lahore") =
      ("🌦️ The weather in **") ++ ("Lahore") ++ ("** is `") ++
        pyStrip ("Sunny +25°C") ++ ("`.") :=
  c5_weather_success httpSunny ("Lahore") ("Sunny +25°C") rfl

/-! ## C7 — get_weather on non-200 -/

/-- C7: for every city string and every non-200 status from the weather
endpoint, get_weather returns the one fixed failure message (independent of
city and status) and raises no exception (the model is a total function
into String). -/
theorem c7_weather_failure (http : HttpWorld) (city : String)
    (h : (http (weatherUrl city)).status_code ≠ 200) :
    get_weather http city = ("❌ Unable to fetch weather at the moment.") := by
  simp [get_weather, h]

theorem c7_witness :
    get_weather http404 ("Lahore") = ("❌ Unable to fetch weather at the moment.") :=
  c7_weather_failure http404 ("Lahore") (by decide)

/-! ## C6 — google_search on HTTP 200 -/

/-- One formatted result block, title then link. -/
def searchBlock (p : String × String) : String :=
  ("🔹 **") ++ p.1 ++ ("**\n🔗 ") ++ p.2

/-- Items that are dicts holding string `title` and `link` fields format to
their blocks. -/
theorem fmtItems_pairs {its : List JValue} {pairs : List (String × String)}
    (h : List.Forall₂ (fun it p => ∃ kv, it = JValue.obj kv ∧
        dictGet kv ("title") = some (.str p.1) ∧ dictGet kv ("link") = some (.str p.2))
      its pairs) :
    fmtItems its = .ok (pairs.map searchBlock) := by
  induction h with
  | nil => rfl
  | cons h1 _ ih =>
    obtain ⟨kv, rfl, ht, hl⟩ := h1
    simp [fmtItems, fmtItem, ht, hl, ih, pyFstr, searchBlock]

theorem pyJoin_cons_length (sep s : String) (ss : List String) :
    s.length ≤ (pyJoin sep (s :: ss)).length := by
  cases ss with
  | nil => simp [pyJoin]
  | cons t ts =>
    simp only [pyJoin, String.length_append]
    omega

/-- C6: for every query, when the search endpoint responds 200 with a JSON
body holding an items list whose first (at most 3) entries carry string
title and link fields, google_search formats each as a two-line block,
joins the blocks with one blank line, and returns the fallback string
exactly when the truncated list is empty. -/
theorem c6_search_success (env : EnvVars) (http : HttpWorld) (query body : String)
    (kvs : List (String × JValue)) (items : List JValue) (pairs : List (String × String))
    (hresp : http (searchUrl env query) = ⟨200, body⟩)
    (hbody : jsonLoads body = some (.obj kvs))
    (hitems : dictGet kvs ("items") = some (.arr items))
    (hpairs : List.Forall₂ (fun it p => ∃ kv, it = JValue.obj kv ∧
        dictGet kv ("title") = some (.str p.1) ∧ dictGet kv ("link") = some (.str p.2))
      (items.take 3) pairs) :
    google_search env http query =
      .ok (if pairs = [] then ("No results found.")
           else pyJoin ("\n\n") (pairs.map searchBlock)) := by
  have hfmt := fmtItems_pairs hpairs
  cases pairs with
  | nil =>
    have htake : items.take 3 = [] := List.forall₂_nil_right_iff.mp hpairs
    simp [google_search, hresp, hbody, hitems, sliceItems, htake, fmtItems, pyJoin]
  | cons p ps =>
    have hne : pyJoin ("\n\n") (searchBlock p :: ps.map searchBlock) ≠ ("") := by
      intro hempty
      have hlen := pyJoin_cons_length ("\n\n") (searchBlock p) (ps.map searchBlock)
      rw [hempty] at hlen
      have hz : (("" : String)).length = 0 := rfl
      rw [hz] at hlen
      have h0 : (searchBlock p).length = 0 := Nat.le_zero.mp hlen
      have h4 : (("🔹 **" : String)).length = 4 := rfl
      simp only [searchBlock, String.length_append] at h0
      rw [h4] at h0
      omega
    simp [google_search, hresp, hbody, hitems, sliceItems, hfmt, hne]

theorem c6_witness :
    google_search envNone httpEmptyItems ("lean theorem prover") =
      .ok (if ([] : List (String × String)) = [] then ("No results found.")
           else pyJoin ("\n\n") (([] : List (String × String)).map searchBlock)) :=
  c6_search_success envNone httpEmptyItems ("lean theorem prover")
    ("\x7b\"items\": []\x7d") [(("items"), .arr [])] [] []
    rfl rfl rfl (by constructor)

/-! ## C1 — action step with a registered tool -/

/-- C1: for every assistant reply parsing to a JSON object whose step is
"action", whose function names a registry key and whose input is I, the
loop invokes that tool's callable with exactly I, appends the re-serialized
action step and then one observe Step whose content is the tool's return
value verbatim, surfaces the observation, and re-enters the loop (a further
LLM call) instead of terminating. -/
theorem c1_action_dispatch (reg : List (String × ToolDesc)) (msgs : List Message)
    (reply : String) (kvs : List (String × JValue)) (F : String) (I : JValue)
    (d : ToolDesc) (R : String)
    (hparse : jsonLoads reply = some (.obj kvs))
    (hstep : pyGet kvs ("step") = .str ("action"))
    (hfn : pyGet kvs ("function") = .str F)
    (hin : pyGet kvs ("input") = I)
    (hreg : regGet reg F = some d)
    (hrun : d.fn I = .ok R) :
    processIter reg msgs reply =
      ⟨msgs ++ [⟨.assistant, jsonDumps (.obj kvs)⟩,
        ⟨.assistant, jsonDumps (.obj [(("step"), .str ("observe")), (("content"), .str R)])⟩],
       [.observationNotice R], .cont⟩ := by
  subst hin
  simp +decide [processIter, hparse, hstep, hfn, hreg, hrun]

theorem c1_witness :
    processIter regDemo [] replyActionLahore =
      ⟨[] ++ [⟨.assistant, jsonDumps (.obj [(("step"), .str ("action")),
          (("function"), .str ("get_weather")), (("input"), .str ("Lahore"))])⟩,
        ⟨.assistant, jsonDumps (.obj [(("step"), .str ("observe")),
          (("content"), .str ("🌦️ The weather in **Lahore** is `Sunny +25°C`."))])⟩],
       [.observationNotice ("🌦️ The weather in **Lahore** is `Sunny +25°C`.")], .cont⟩ :=
  c1_action_dispatch regDemo [] replyActionLahore
    [(("step"), .str ("action")), (("function"), .str ("get_weather")),
     (("input"), .str ("Lahore"))]
    ("get_weather") (.str ("Lahore"))
    ⟨fun v => .ok (get_weather httpSunny (pyFstr v)),
     ("Takes a city name and returns current weather.")⟩
    ("🌦️ The weather in **Lahore** is `Sunny +25°C`.")
    rfl rfl rfl rfl rfl rfl

/-! ## C4 — action step with an unknown tool name -/

/-- C4: for every assistant reply parsing to an action step whose function
is a string that is not a registry key, the loop invokes no tool, appends
no observe Message, and silently falls through to the next LLM call with
the conversation extended only by the re-serialized action step. -/
theorem c4_unknown_tool (reg : List (String × ToolDesc)) (msgs : List Message)
    (reply : String) (kvs : List (String × JValue)) (F : String)
    (hparse : jsonLoads reply = some (.obj kvs))
    (hstep : pyGet kvs ("step") = .str ("action"))
    (hfn : pyGet kvs ("function") = .str F)
    (hreg : regGet reg F = none) :
    processIter reg msgs reply =
      ⟨msgs ++ [⟨.assistant, jsonDumps (.obj kvs)⟩], [], .cont⟩ := by
  simp +decide [processIter, hparse, hstep, hfn, hreg]

theorem c4_witness :
    processIter regDemo []
      ("\x7b\"step\": \"action\", \"function\": \"fly_to_moon\", \"input\": \"x\"\x7d") =
      ⟨[] ++ [⟨.assistant, jsonDumps (.obj [(("step"), .str ("action")),
        (("function"), .str ("fly_to_moon")), (("input"), .str ("x"))])⟩], [], .cont⟩ :=
  c4_unknown_tool regDemo []
    ("\x7b\"step\": \"action\", \"function\": \"fly_to_moon\", \"input\": \"x\"\x7d")
    [(("step"), .str ("action")), (("function"), .str ("fly_to_moon")),
     (("input"), .str ("x"))]
    ("fly_to_moon") rfl rfl rfl rfl

/-! ## C8 — output step terminates with the content -/

/-- C8: for every assistant reply parsing to an output step with string
content C, the loop appends the re-serialized step, surfaces C itself as
the final answer, and stops — no further LLM call. -/
theorem c8_output_terminates (reg : List (String × ToolDesc)) (msgs : List Message)
    (reply : String) (kvs : List (String × JValue)) (C : String)
    (hparse : jsonLoads reply = some (.obj kvs))
    (hstep : pyGet kvs ("step") = .str ("output"))
    (hcontent : dictGet kvs ("content") = some (.str C)) :
    processIter reg msgs reply =
      ⟨msgs ++ [⟨.assistant, jsonDumps (.obj kvs)⟩], [.finalAnswer C], .stop⟩ := by
  simp +decide [processIter, hparse, hstep, hcontent, pyFstr]

theorem c8_witness :
    processIter regDemo [] replyOutputDone =
      ⟨[] ++ [⟨.assistant, jsonDumps (.obj [(("step"), .str ("output")),
        (("content"), .str ("done"))])⟩], [.finalAnswer ("done")], .stop⟩ :=
  c8_output_terminates regDemo [] replyOutputDone
    [(("step"), .str ("output")), (("content"), .str ("done"))] ("done")
    rfl rfl rfl

/-! ## C9 — plan or output step without content -/

/-- C9 (implicit-behavior claim): a reply parsing to a JSON object whose
step is "plan" or "output" but which has no content key is first appended
(re-serialized) and then raises an unhandled KeyError, because those two
branches index the content key without a default, unlike step, function
and input which are read with a defaulting get. -/
theorem c9_missing_content_keyerror (reg : List (String × ToolDesc)) (msgs : List Message)
    (reply : String) (kvs : List (String × JValue)) (t : String)
    (hparse : jsonLoads reply = some (.obj kvs))
    (hstep : pyGet kvs ("step") = .str t)
    (ht : t = ("plan") ∨ t = ("output"))
    (hcontent : dictGet kvs ("content") = none) :
    processIter reg msgs reply =
      ⟨msgs ++ [⟨.assistant, jsonDumps (.obj kvs)⟩], [], .crash .keyError⟩ := by
  rcases ht with rfl | rfl <;>
    simp +decide [processIter, hparse, hstep, hcontent]

theorem c9_witness :
    processIter regDemo [] ("\x7b\"step\": \"plan\"\x7d") =
      ⟨[] ++ [⟨.assistant, jsonDumps (.obj [(("step"), .str ("plan"))])⟩],
       [], .crash .keyError⟩ :=
  c9_missing_content_keyerror regDemo [] ("\x7b\"step\": \"plan\"\x7d")
    [(("step"), .str ("plan"))] ("plan") rfl rfl (Or.inl rfl) rfl

/-! ## C2 — parse failure handling -/

/-- C2 counterexample: the reply `[1,2]` is valid JSON that does not match
the Step shape.  The claim asserts the loop recovers, appends the raw reply
unchanged and notifies the user; in fact the loop appends the re-serialized
text `[1, 2]` (not the raw reply), surfaces nothing, and crashes with an
unhandled AttributeError from `parsed.get` on a list. -/
theorem c2_counterexample :
    stepShapedB ("[1,2]") = false ∧
    processChat regDemo (fun _ => ("[1,2]")) 5 [] =
      ⟨[⟨.assistant, ("[1, 2]")⟩], [], 1, .crashed .attributeError⟩ ∧
    ("[1, 2]" : String) ≠ ("[1,2]") :=
  ⟨rfl, rfl, by decide⟩

/-- C2 (amended): for every LLM reply text that is not valid JSON, the loop
recovers (no exception), appends the raw reply text unchanged as the last
assistant Message, notifies the user, and terminates after that single
failed parse attempt with exactly one LLM call issued.  Replies that are
valid JSON but fail the Step shape are instead re-serialized and appended,
and lead to an unrecognized-step warning, a silent fallthrough, or an
unhandled exception, depending on their shape. -/
theorem c2_parse_failure (reg : List (String × ToolDesc)) (llm : List Message → String)
    (fuel : Nat) (msgs : List Message)
    (hparse : jsonLoads (llm msgs) = none) :
    processChat reg llm (fuel + 1) msgs =
      ⟨msgs ++ [⟨.assistant, llm msgs⟩], [.parseErrorNotice], 1, .finished⟩ := by
  simp [processChat, processIter, hparse]

theorem c2_witness :
    processChat regDemo (fun _ => ("hello")) 1 [] =
      ⟨[] ++ [⟨.assistant, ("hello")⟩], [.parseErrorNotice], 1, .finished⟩ :=
  c2_parse_failure regDemo (fun _ => ("hello")) 0 [] rfl

/-! ## C3 — the appended-message invariant -/

theorem all_dumps_one (v : JValue) :
    ∀ m ∈ [Message.mk .assistant (jsonDumps v)],
      m.role = .assistant ∧ ∃ w, m.content = jsonDumps w := by
  intro m hm
  rw [List.mem_singleton] at hm
  subst hm
  exact ⟨rfl, v, rfl⟩

theorem all_dumps_two (v w : JValue) :
    ∀ m ∈ [Message.mk .assistant (jsonDumps v), Message.mk .assistant (jsonDumps w)],
      m.role = .assistant ∧ ∃ u, m.content = jsonDumps u := by
  intro m hm
  rcases List.mem_pair.mp hm with rfl | rfl
  · exact ⟨rfl, v, rfl⟩
  · exact ⟨rfl, w, rfl⟩

/-- Every message one loop iteration appends is an assistant message whose
content is serialized JSON, except the raw reply appended on a parse
failure, which is then the last appended message and comes with the
parse-error notice and a break. -/
theorem processIter_suffix (reg : List (String × ToolDesc)) (msgs : List Message)
    (reply : String) :
    ∃ suffix : List Message,
      (processIter reg msgs reply).messages = msgs ++ suffix ∧
      ∀ m ∈ suffix, m.role = .assistant ∧
        ((∃ v : JValue, m.content = jsonDumps v) ∨
         (suffix.getLast? = some m ∧ jsonLoads m.content = none ∧
          (processIter reg msgs reply).events = [.parseErrorNotice] ∧
          (processIter reg msgs reply).outcome = .stop)) := by
  rcases hp : jsonLoads reply with _ | parsed
  · refine ⟨[⟨.assistant, reply⟩], by simp [processIter, hp], ?_⟩
    intro m hm
    rw [List.mem_singleton] at hm
    subst hm
    exact ⟨rfl, Or.inr ⟨rfl, hp, by simp [processIter, hp], by simp [processIter, hp]⟩⟩
  · suffices h : ∃ suffix : List Message,
        (processIter reg msgs reply).messages = msgs ++ suffix ∧
        ∀ m ∈ suffix, m.role = .assistant ∧ ∃ v : JValue, m.content = jsonDumps v by
      obtain ⟨sfx, h1, h2⟩ := h
      exact ⟨sfx, h1, fun m hm => ⟨(h2 m hm).1, Or.inl (h2 m hm).2⟩⟩
    rcases parsed with _ | b | lex | s | es | kvs
    · exact ⟨[⟨.assistant, jsonDumps .null⟩], by simp [processIter, hp], all_dumps_one _⟩
    · exact ⟨[⟨.assistant, jsonDumps (.bool b)⟩], by simp [processIter, hp], all_dumps_one _⟩
    · exact ⟨[⟨.assistant, jsonDumps (.num lex)⟩], by simp [processIter, hp], all_dumps_one _⟩
    · exact ⟨[⟨.assistant, jsonDumps (.str s)⟩], by simp [processIter, hp], all_dumps_one _⟩
    · exact ⟨[⟨.assistant, jsonDumps (.arr es)⟩], by simp [processIter, hp], all_dumps_one _⟩
    · rcases hstep : pyGet kvs ("step") with _ | b2 | lex2 | t | es2 | kvs2
      · exact ⟨[⟨.assistant, jsonDumps (.obj kvs)⟩],
          by simp [processIter, hp, hstep], all_dumps_one _⟩
      · exact ⟨[⟨.assistant, jsonDumps (.obj kvs)⟩],
          by simp [processIter, hp, hstep], all_dumps_one _⟩
      · exact ⟨[⟨.assistant, jsonDumps (.obj kvs)⟩],
          by simp [processIter, hp, hstep], all_dumps_one _⟩
      case arr =>
        exact ⟨[⟨.assistant, jsonDumps (.obj kvs)⟩],
          by simp [processIter, hp, hstep], all_dumps_one _⟩
      case obj =>
        exact ⟨[⟨.assistant, jsonDumps (.obj kvs)⟩],
          by simp [processIter, hp, hstep], all_dumps_one _⟩
      case str =>
      by_cases ht1 : t = ("plan")
      · subst ht1
        rcases hc : dictGet kvs ("content") with _ | c
        · exact ⟨[⟨.assistant, jsonDumps (.obj kvs)⟩],
            by simp +decide [processIter, hp, hstep, hc], all_dumps_one _⟩
        · exact ⟨[⟨.assistant, jsonDumps (.obj kvs)⟩],
            by simp +decide [processIter, hp, hstep, hc], all_dumps_one _⟩
      by_cases ht2 : t = ("action")
      · subst ht2
        rcases hf : pyGet kvs ("function") with _ | b3 | lex3 | f | es3 | kvs3
        · exact ⟨[⟨.assistant, jsonDumps (.obj kvs)⟩],
            by simp +decide [processIter, hp, hstep, hf], all_dumps_one _⟩
        · exact ⟨[⟨.assistant, jsonDumps (.obj kvs)⟩],
            by simp +decide [processIter, hp, hstep, hf], all_dumps_one _⟩
        · exact ⟨[⟨.assistant, jsonDumps (.obj kvs)⟩],
            by simp +decide [processIter, hp, hstep, hf], all_dumps_one _⟩
        · rcases hreg : regGet reg f with _ | d
          · exact ⟨[⟨.assistant, jsonDumps (.obj kvs)⟩],
              by simp +decide [processIter, hp, hstep, hf, hreg], all_dumps_one _⟩
          · rcases hrun : d.fn (pyGet kvs ("input")) with e | r
            · exact ⟨[⟨.assistant, jsonDumps (.obj kvs)⟩],
                by simp +decide [processIter, hp, hstep, hf, hreg, hrun], all_dumps_one _⟩
            · exact ⟨[⟨.assistant, jsonDumps (.obj kvs)⟩,
                ⟨.assistant,
                 jsonDumps (.obj [(("step"), .str ("observe")), (("content"), .str r)])⟩],
                by simp +decide [processIter, hp, hstep, hf, hreg, hrun], all_dumps_two _ _⟩
        · exact ⟨[⟨.assistant, jsonDumps (.obj kvs)⟩],
            by simp +decide [processIter, hp, hstep, hf], all_dumps_one _⟩
        · exact ⟨[⟨.assistant, jsonDumps (.obj kvs)⟩],
            by simp +decide [processIter, hp, hstep, hf], all_dumps_one _⟩
      by_cases ht3 : t = ("output")
      · subst ht3
        rcases hc : dictGet kvs ("content") with _ | c
        · exact ⟨[⟨.assistant, jsonDumps (.obj kvs)⟩],
            by simp +decide [processIter, hp, hstep, hc], all_dumps_one _⟩
        · exact ⟨[⟨.assistant, jsonDumps (.obj kvs)⟩],
            by simp +decide [processIter, hp, hstep, hc], all_dumps_one _⟩
      · exact ⟨[⟨.assistant, jsonDumps (.obj kvs)⟩],
          by simp [processIter, hp, hstep, ht1, ht2, ht3], all_dumps_one _⟩

/-- C3 (amended): over one dialogue-loop run, every assistant Message
appended to the Conversation is serialized JSON (the re-serialization of a
parsed reply or of an observe Step), with the single exception of the
message appended immediately before the loop aborts on a parse failure,
which holds the raw unparseable text and is then the last appended message,
the run's last surfaced notice being the parse-error notice.  Conformance
of the appended JSON to the full Step shape is not guaranteed (see the
counterexample). -/
theorem c3_appended_messages (reg : List (String × ToolDesc)) (llm : List Message → String)
    (fuel : Nat) (msgs : List Message) :
    ∃ suffix : List Message,
      (processChat reg llm fuel msgs).messages = msgs ++ suffix ∧
      ∀ m ∈ suffix, m.role = .assistant ∧
        ((∃ v : JValue, m.content = jsonDumps v) ∨
         (suffix.getLast? = some m ∧ jsonLoads m.content = none ∧
          (processChat reg llm fuel msgs).events.getLast? = some .parseErrorNotice)) := by
  induction fuel generalizing msgs with
  | zero => exact ⟨[], by simp [processChat], by simp⟩
  | succ fuel ih =>
    obtain ⟨s1, h1m, h1p⟩ := processIter_suffix reg msgs (llm msgs)
    rcases ho : (processIter reg msgs (llm msgs)).outcome with _ | _ | e
    · -- the iteration re-enters the loop
      obtain ⟨s2, h2m, h2p⟩ := ih (processIter reg msgs (llm msgs)).messages
      have hres : processChat reg llm (fuel + 1) msgs =
          ⟨(processChat reg llm fuel (processIter reg msgs (llm msgs)).messages).messages,
           (processIter reg msgs (llm msgs)).events ++
             (processChat reg llm fuel (processIter reg msgs (llm msgs)).messages).events,
           (processChat reg llm fuel (processIter reg msgs (llm msgs)).messages).calls + 1,
           (processChat reg llm fuel (processIter reg msgs (llm msgs)).messages).outcome⟩ := by
        simp [processChat, ho]
      refine ⟨s1 ++ s2, ?_, ?_⟩
      · rw [hres]
        rw [h2m, h1m, List.append_assoc]
      · intro m hm
        rcases List.mem_append.mp hm with hm1 | hm2
        · obtain ⟨hrole, hd⟩ := h1p m hm1
          rcases hd with hd | ⟨_, _, _, hstop⟩
          · exact ⟨hrole, Or.inl hd⟩
          · rw [ho] at hstop
            cases hstop
        · obtain ⟨hrole, hd⟩ := h2p m hm2
          rcases hd with hd | ⟨hlast, hload, hev⟩
          · exact ⟨hrole, Or.inl hd⟩
          · refine ⟨hrole, Or.inr ⟨?_, hload, ?_⟩⟩
            · rw [List.getLast?_append, hlast]
              rfl
            · rw [hres]
              simp only [List.getLast?_append, hev]
              rfl
    · -- the iteration breaks
      have hres : processChat reg llm (fuel + 1) msgs =
          ⟨(processIter reg msgs (llm msgs)).messages,
           (processIter reg msgs (llm msgs)).events, 1, .finished⟩ := by
        simp [processChat, ho]
      refine ⟨s1, by rw [hres, h1m], ?_⟩
      intro m hm
      obtain ⟨hrole, hd⟩ := h1p m hm
      rcases hd with hd | ⟨hlast, hload, hev, _⟩
      · exact ⟨hrole, Or.inl hd⟩
      · refine ⟨hrole, Or.inr ⟨hlast, hload, ?_⟩⟩
        rw [hres]
        simp [hev]
    · -- the iteration crashes: no raw append is possible there
      have hres : processChat reg llm (fuel + 1) msgs =
          ⟨(processIter reg msgs (llm msgs)).messages,
           (processIter reg msgs (llm msgs)).events, 1, .crashed e⟩ := by
        simp [processChat, ho]
      refine ⟨s1, by rw [hres, h1m], ?_⟩
      intro m hm
      obtain ⟨hrole, hd⟩ := h1p m hm
      rcases hd with hd | ⟨_, _, _, hstop⟩
      · exact ⟨hrole, Or.inl hd⟩
      · rw [ho] at hstop
        cases hstop

theorem c3_witness :
    ∃ suffix : List Message,
      (processChat regDemo llmActionThenOutput 5 []).messages = [] ++ suffix ∧
      ∀ m ∈ suffix, m.role = .assistant ∧
        ((∃ v : JValue, m.content = jsonDumps v) ∨
         (suffix.getLast? = some m ∧ jsonLoads m.content = none ∧
          (processChat regDemo llmActionThenOutput 5 []).events.getLast? =
            some .parseErrorNotice)) :=
  c3_appended_messages regDemo llmActionThenOutput 5 []

/-- C3 counterexample: a run (weather action without a content key, then an
output step) in which the very first appended assistant Message fails the
Step shape — it lacks the required content field — while the run neither
aborts on a parse failure nor makes that message the last one.  The
original invariant, which permits only the pre-parse-failure message as an
exception to Step-shape conformance, is therefore false on this run. -/
theorem c3_counterexample :
    (processChat regDemo llmActionThenOutput 5 []).outcome = .finished ∧
    UIEvent.parseErrorNotice ∉ (processChat regDemo llmActionThenOutput 5 []).events ∧
    (processChat regDemo llmActionThenOutput 5 []).messages.map
      (fun m => m.role) = [.assistant, .assistant, .assistant] ∧
    (processChat regDemo llmActionThenOutput 5 []).messages.map
      (fun m => stepShapedB m.content) = [false, true, true] :=
  ⟨rfl, by decide, rfl, rfl⟩

/-! ## C10 — Step round trip through the serializer and the parser -/

theorem hexVal_hexChar_fin : ∀ i : Fin 16, hexDigitVal (hexDigitChar i.val) = some i.val := by
  decide

theorem hexVal_hexChar {n : Nat} (h : n < 16) : hexDigitVal (hexDigitChar n) = some n :=
  hexVal_hexChar_fin ⟨n, h⟩

theorem data_mk (l : List Char) : (String.mk l).data = l := rfl

theorem psb_quote (f : Nat) (X : List Char) :
    parseStrBody (f + 1) (quoteC :: X) = some ([], X) := by
  simp only [parseStrBody]
  simp

theorem psb_esc (f : Nat) (e ch : Char) (X : List Char)
    (hne : ¬ e = 'u') (hd : escCharDecode e = some ch) :
    parseStrBody (f + 1) (bslashC :: e :: X) =
      (parseStrBody f X).map (fun p => (ch :: p.1, p.2)) := by
  simp only [parseStrBody, hne, hd]
  simp +decide [hne, hd]

theorem psb_verbatim (f : Nat) (c : Char) (X : List Char)
    (h1 : ¬ c = quoteC) (h2 : ¬ c = bslashC) (h3 : ¬ c.toNat < 32) :
    parseStrBody (f + 1) (c :: X) =
      (parseStrBody f X).map (fun p => (c :: p.1, p.2)) := by
  simp only [parseStrBody]
  rw [if_neg h1, if_neg h2, if_neg h3]

theorem psb_u00 (f : Nat) (a b : Char) (x y : Nat) (X : List Char)
    (ha : hexDigitVal a = some x) (hb : hexDigitVal b = some y)
    (hx : x < 16) (hy : y < 16) :
    parseStrBody (f + 1) (bslashC :: 'u' :: '0' :: '0' :: a :: b :: X) =
      (parseStrBody f X).map (fun p => (Char.ofNat (x * 16 + y) :: p.1, p.2)) := by
  have h00 : hex4Val ('0') ('0') a b = some (((0 * 16 + 0) * 16 + x) * 16 + y) := by
    simp only [hex4Val, ha, hb]
    rfl
  have hs1 : ¬ (55296 ≤ ((0 * 16 + 0) * 16 + x) * 16 + y ∧
      ((0 * 16 + 0) * 16 + x) * 16 + y ≤ 56319) := by omega
  have hs2 : ¬ (56320 ≤ ((0 * 16 + 0) * 16 + x) * 16 + y ∧
      ((0 * 16 + 0) * 16 + x) * 16 + y ≤ 57343) := by omega
  have hs1b : ¬ (55296 ≤ x * 16 + y ∧ x * 16 + y ≤ 56319) := by omega
  have hs2b : ¬ (56320 ≤ x * 16 + y ∧ x * 16 + y ≤ 57343) := by omega
  have hv : ((0 * 16 + 0) * 16 + x) * 16 + y = x * 16 + y := by omega
  have hq : (bslashC = quoteC) = False := by decide
  simp only [parseStrBody, h00, hq, if_false, if_true, hs1, hs2, hs1b, hs2b, hv, if_neg,
    ite_false, ite_true]

/-- The escaped form of a string body, followed by the closing quote, parses
back to the original characters, at any fuel above the escaped length. -/
theorem parseStrBody_escape (s : List Char) : ∀ (f : Nat) (rest : List Char),
    (jsonEscape s).length < f →
    parseStrBody f (jsonEscape s ++ (quoteC :: rest)) = some (s, rest) := by
  induction s with
  | nil =>
    intro f rest hf
    match f, hf with
    | f + 1, _ => exact psb_quote f rest
  | cons c cs ih =>
    intro f rest hf
    have hlen : 1 ≤ (jsonEscapeChar c).length := by
      simp only [jsonEscapeChar]
      split_ifs <;> simp
    have hlen2 : (jsonEscape (c :: cs)).length =
        (jsonEscapeChar c).length + (jsonEscape cs).length := by
      show (jsonEscapeChar c ++ jsonEscape cs).length = _
      simp
    match f, hf with
    | f + 1, hf =>
    have hcs : (jsonEscape cs).length < f := by omega
    have hih := ih f rest hcs
    show parseStrBody (f + 1) ((jsonEscapeChar c ++ jsonEscape cs) ++ (quoteC :: rest)) = _
    rw [List.append_assoc]
    by_cases h1 : c = quoteC
    · subst h1
      rw [show jsonEscapeChar quoteC = [bslashC, quoteC] from rfl]
      rw [show ([bslashC, quoteC] : List Char) ++ (jsonEscape cs ++ (quoteC :: rest)) =
        bslashC :: quoteC :: (jsonEscape cs ++ (quoteC :: rest)) from rfl]
      rw [psb_esc f quoteC quoteC _ (by decide) (by decide), hih]
      rfl
    by_cases h2 : c = bslashC
    · subst h2
      rw [show jsonEscapeChar bslashC = [bslashC, bslashC] from by
        simp +decide [jsonEscapeChar]]
      rw [show ([bslashC, bslashC] : List Char) ++ (jsonEscape cs ++ (quoteC :: rest)) =
        bslashC :: bslashC :: (jsonEscape cs ++ (quoteC :: rest)) from rfl]
      rw [psb_esc f bslashC bslashC _ (by decide) (by decide), hih]
      rfl
    by_cases h3 : c = '\n'
    · subst h3
      rw [show jsonEscapeChar ('\n') = [bslashC, 'n'] from by simp +decide [jsonEscapeChar]]
      rw [show ([bslashC, 'n'] : List Char) ++ (jsonEscape cs ++ (quoteC :: rest)) =
        bslashC :: 'n' :: (jsonEscape cs ++ (quoteC :: rest)) from rfl]
      rw [psb_esc f ('n') ('\n') _ (by decide) (by decide), hih]
      rfl
    by_cases h4 : c = '\r'
    · subst h4
      rw [show jsonEscapeChar ('\r') = [bslashC, 'r'] from by simp +decide [jsonEscapeChar]]
      rw [show ([bslashC, 'r'] : List Char) ++ (jsonEscape cs ++ (quoteC :: rest)) =
        bslashC :: 'r' :: (jsonEscape cs ++ (quoteC :: rest)) from rfl]
      rw [psb_esc f ('r') ('\r') _ (by decide) (by decide), hih]
      rfl
    by_cases h5 : c = '\t'
    · subst h5
      rw [show jsonEscapeChar ('\t') = [bslashC, 't'] from by simp +decide [jsonEscapeChar]]
      rw [show ([bslashC, 't'] : List Char) ++ (jsonEscape cs ++ (quoteC :: rest)) =
        bslashC :: 't' :: (jsonEscape cs ++ (quoteC :: rest)) from rfl]
      rw [psb_esc f ('t') ('\t') _ (by decide) (by decide), hih]
      rfl
    by_cases h6 : c.toNat = 8
    · have hc : c = Char.ofNat 8 := by rw [← h6, Char.ofNat_toNat]
      subst hc
      rw [show jsonEscapeChar (Char.ofNat 8) = [bslashC, 'b'] from by
        simp +decide [jsonEscapeChar]]
      rw [show ([bslashC, 'b'] : List Char) ++ (jsonEscape cs ++ (quoteC :: rest)) =
        bslashC :: 'b' :: (jsonEscape cs ++ (quoteC :: rest)) from rfl]
      rw [psb_esc f ('b') (Char.ofNat 8) _ (by decide) (by decide), hih]
      rfl
    by_cases h7 : c.toNat = 12
    · have hc : c = Char.ofNat 12 := by rw [← h7, Char.ofNat_toNat]
      subst hc
      rw [show jsonEscapeChar (Char.ofNat 12) = [bslashC, 'f'] from by
        simp +decide [jsonEscapeChar]]
      rw [show ([bslashC, 'f'] : List Char) ++ (jsonEscape cs ++ (quoteC :: rest)) =
        bslashC :: 'f' :: (jsonEscape cs ++ (quoteC :: rest)) from rfl]
      rw [psb_esc f ('f') (Char.ofNat 12) _ (by decide) (by decide), hih]
      rfl
    by_cases h8 : c.toNat < 32
    · have he : jsonEscapeChar c = [bslashC, 'u', '0', '0', hexDigitChar (c.toNat / 16),
          hexDigitChar (c.toNat % 16)] := by
        simp only [jsonEscapeChar, h1, h2, h3, h4, h5, h6, h7, h8, if_false, if_true,
          ite_false, ite_true]
      rw [he]
      rw [show ([bslashC, 'u', '0', '0', hexDigitChar (c.toNat / 16),
          hexDigitChar (c.toNat % 16)] : List Char) ++ (jsonEscape cs ++ (quoteC :: rest)) =
        bslashC :: 'u' :: '0' :: '0' :: hexDigitChar (c.toNat / 16) ::
          hexDigitChar (c.toNat % 16) :: (jsonEscape cs ++ (quoteC :: rest)) from rfl]
      rw [psb_u00 f _ _ (c.toNat / 16) (c.toNat % 16) _
        (hexVal_hexChar (by omega)) (hexVal_hexChar (by omega)) (by omega) (by omega), hih]
      have hch : c.toNat / 16 * 16 + c.toNat % 16 = c.toNat := by omega
      rw [hch, Char.ofNat_toNat]
      rfl
    · have he : jsonEscapeChar c = [c] := by
        simp only [jsonEscapeChar, h1, h2, h3, h4, h5, h6, h7, h8, if_false, if_true,
          ite_false, ite_true]
      rw [he]
      rw [show ([c] : List Char) ++ (jsonEscape cs ++ (quoteC :: rest)) =
        c :: (jsonEscape cs ++ (quoteC :: rest)) from rfl]
      rw [psb_verbatim f c _ h1 h2 h8, hih]
      rfl

theorem skipWs_not_ws {c : Char} (h : isJsonWs c = false) (l : List Char) :
    skipWs (c :: l) = c :: l := by
  simp [skipWs, h]

theorem skipWs_space (l : List Char) : skipWs (' ' :: l) = skipWs l := by
  simp [skipWs, isJsonWs]

/-- A serialized string literal parses back to the string, at any positive
fuel. -/
theorem parseValue_dumpsStr (f : Nat) (s : String) (rest : List Char) :
    parseValue (f + 1) (dumpsStr s ++ rest) = some (.str s, rest) := by
  have hshape : dumpsStr s ++ rest = quoteC :: (jsonEscape s.data ++ (quoteC :: rest)) := by
    show (quoteC :: (jsonEscape s.data ++ [quoteC])) ++ rest = _
    simp
  rw [hshape]
  simp only [parseValue]
  rw [skipWs_not_ws (by decide)]
  dsimp only
  rw [if_pos rfl]
  rw [parseStrBody_escape s.data _ rest (by simp; omega)]
  rfl

theorem parseValue_space (f : Nat) (cs : List Char) :
    parseValue (f + 1) (' ' :: cs) = parseValue (f + 1) cs := by
  simp only [parseValue]
  rw [skipWs_space]

/-- The dict built by folding the decoder's insertions over parsed members. -/
def foldIns (acc : List (String × JValue)) (kvs : List (String × JValue)) :
    List (String × JValue) :=
  kvs.foldl (fun a p => objInsert a p.1 p.2) acc

theorem dumpsMembers_cons_shape (q : String × JValue) (l : List (String × JValue)) :
    ∃ tl, dumpsMembers (q :: l) = quoteC :: tl := by
  obtain ⟨k, v⟩ := q
  cases l with
  | nil =>
    exact ⟨jsonEscape k.data ++ [quoteC] ++ (':' :: ' ' :: dumpsV v), by
      simp only [dumpsMembers, dumpsStr]
      simp⟩
  | cons q2 l2 =>
    exact ⟨jsonEscape k.data ++ [quoteC] ++ ((':' :: ' ' :: dumpsV v) ++
        (',' :: ' ' :: dumpsMembers (q2 :: l2))), by
      simp only [dumpsMembers, dumpsStr]
      simp⟩

theorem strEta (s : String) : String.mk s.data = s := rfl

/-- Members whose values are all strings, in their serialized form followed
by the closing brace, parse back into the dict insertions. -/
theorem parseMembers_strDumps (kvs : List (String × JValue)) :
    ∀ (f : Nat) (acc : List (String × JValue)) (rest : List Char),
      (∀ p ∈ kvs, ∃ s : String, p.2 = .str s) → kvs ≠ [] →
      parseMembers (f + kvs.length + 1) (dumpsMembers kvs ++ (rbraceC :: rest)) acc =
        some (.obj (foldIns acc kvs), rest) := by
  induction kvs with
  | nil =>
    intro f acc rest _ hne
    exact absurd rfl hne
  | cons p kvs2 ih =>
    intro f acc rest hstr _
    obtain ⟨k, v⟩ := p
    obtain ⟨s, rfl⟩ := hstr (k, v) (List.mem_cons_self _ _)
    cases kvs2 with
    | nil =>
      have hm : dumpsMembers [(k, JValue.str s)] ++ (rbraceC :: rest) =
          quoteC :: (jsonEscape k.data ++ (quoteC :: (':' :: ' ' ::
            (dumpsStr s ++ (rbraceC :: rest))))) := by
        simp only [dumpsMembers, dumpsV, dumpsStr]
        simp
      rw [hm]
      show parseMembers (f + 1 + 1) _ acc = _
      obtain ⟨g, hg⟩ : ∃ g, g = f + 1 := ⟨f + 1, rfl⟩
      rw [show f + 1 + 1 = g + 1 from by omega]
      simp only [parseMembers]
      rw [parseStrBody_escape k.data _ _ (by simp; omega)]
      dsimp only
      rw [if_pos trivial]
      rw [skipWs_not_ws (by decide)]
      simp +decide only []
      rw [hg, parseValue_space, parseValue_dumpsStr]
      dsimp only
      rw [skipWs_not_ws (by decide : isJsonWs rbraceC = false)]
      simp +decide [foldIns]
    | cons q kvs3 =>
      have hm : dumpsMembers ((k, JValue.str s) :: q :: kvs3) ++ (rbraceC :: rest) =
          quoteC :: (jsonEscape k.data ++ (quoteC :: (':' :: ' ' ::
            (dumpsStr s ++ (',' :: ' ' ::
              (dumpsMembers (q :: kvs3) ++ (rbraceC :: rest))))))) := by
        simp only [dumpsMembers, dumpsV, dumpsStr]
        simp
      rw [hm]
      show parseMembers (f + ((q :: kvs3).length + 1) + 1) _ acc = _
      obtain ⟨g, hg⟩ : ∃ g, g = f + (q :: kvs3).length + 1 := ⟨_, rfl⟩
      rw [show f + ((q :: kvs3).length + 1) + 1 = g + 1 from by rw [hg]; omega]
      simp only [parseMembers]
      rw [parseStrBody_escape k.data _ _ (by simp; omega)]
      dsimp only
      rw [if_pos trivial]
      rw [skipWs_not_ws (by decide)]
      simp +decide only []
      rw [hg]
      rw [show f + (q :: kvs3).length + 1 = (f + (q :: kvs3).length) + 1 from rfl]
      rw [parseValue_space, parseValue_dumpsStr]
      dsimp only
      obtain ⟨tl, htl⟩ := dumpsMembers_cons_shape q kvs3
      rw [show skipWs (',' :: ' ' :: (dumpsMembers (q :: kvs3) ++ (rbraceC :: rest))) =
          ',' :: ' ' :: (dumpsMembers (q :: kvs3) ++ (rbraceC :: rest)) from
        skipWs_not_ws (by decide) _]
      simp +decide only []
      rw [show skipWs (' ' :: (dumpsMembers (q :: kvs3) ++ (rbraceC :: rest))) =
          dumpsMembers (q :: kvs3) ++ (rbraceC :: rest) from by
        rw [skipWs_space, htl]
        exact skipWs_not_ws (by decide) _]
      rw [show (f + (q :: kvs3).length) + 1 = f + (q :: kvs3).length + 1 from rfl]
      rw [ih f (objInsert acc (String.mk k.data) (.str s)) rest
        (fun p hp => hstr p (List.mem_cons_of_mem _ hp)) (by simp)]
      simp [foldIns]

theorem le_length_dumpsMembers : ∀ kvs : List (String × JValue),
    kvs.length ≤ (dumpsMembers kvs).length := by
  intro kvs
  induction kvs with
  | nil => simp [dumpsMembers]
  | cons p kvs2 ih =>
    obtain ⟨k, v⟩ := p
    cases kvs2 with
    | nil =>
      simp only [dumpsMembers, dumpsStr]
      simp
    | cons q kvs3 =>
      simp only [dumpsMembers, dumpsStr] at ih ⊢
      simp at ih ⊢
      omega

/-- Serializing a dict whose values are all strings and parsing it back
yields the fold of the decoder's insertions. -/
theorem jsonLoads_dumps_strObj (kvs : List (String × JValue))
    (hstr : ∀ p ∈ kvs, ∃ s : String, p.2 = .str s) (hne : kvs ≠ []) :
    jsonLoads (jsonDumps (.obj kvs)) = some (.obj (foldIns [] kvs)) := by
  obtain ⟨p, l, rfl⟩ : ∃ p l, kvs = p :: l := by
    cases kvs with
    | nil => exact absurd rfl hne
    | cons p l => exact ⟨p, l, rfl⟩
  obtain ⟨tl, htl⟩ := dumpsMembers_cons_shape p l
  have hdata : (jsonDumps (JValue.obj (p :: l))).data =
      lbraceC :: (dumpsMembers (p :: l) ++ [rbraceC]) := by
    simp only [jsonDumps, data_mk, dumpsV]
  have hlen : (jsonDumps (JValue.obj (p :: l))).data.length =
      (dumpsMembers (p :: l)).length + 2 := by
    rw [hdata]
    simp
  obtain ⟨f, hf⟩ : ∃ f, (jsonDumps (JValue.obj (p :: l))).data.length = f + (p :: l).length + 1 := by
    refine ⟨(dumpsMembers (p :: l)).length + 1 - (p :: l).length, ?_⟩
    have := le_length_dumpsMembers (p :: l)
    rw [hlen]
    omega
  simp only [jsonLoads, hdata]
  simp only [parseValue]
  rw [skipWs_not_ws (by decide)]
  dsimp only
  rw [if_neg (by decide), if_pos rfl]
  rw [show dumpsMembers (p :: l) ++ [rbraceC] = quoteC :: (tl ++ [rbraceC]) from by
    rw [htl]; simp]
  rw [skipWs_not_ws (by decide)]
  dsimp only
  rw [if_neg (by decide)]
  rw [show quoteC :: (tl ++ [rbraceC]) = dumpsMembers (p :: l) ++ (rbraceC :: []) from by
    rw [htl]; simp]
  rw [show (lbraceC :: (dumpsMembers (p :: l) ++ [rbraceC])).length =
      f + (p :: l).length + 1 from by rw [← hdata]; exact hf]
  rw [parseMembers_strDumps (p :: l) f [] [] hstr (by simp)]
  rfl

/-- C10: serializing a Step to JSON and parsing the result back yields the
very same JSON dict, and reading the Step fields off that dict returns a
Step with identical step, content, function and input fields. -/
theorem c10_step_roundtrip (st : Step) :
    jsonLoads (jsonDumps (stepToJson st)) = some (stepToJson st) ∧
    stepOfJValue (stepToJson st) = some st := by
  obtain ⟨tag, c, fo, io⟩ := st
  rcases fo with _ | fv <;> rcases io with _ | iv
  · constructor
    · have h := jsonLoads_dumps_strObj
        [(("step"), .str tag.toStr), (("content"), .str c)]
        (by
          intro p hp
          simp at hp
          rcases hp with rfl | rfl
          · exact ⟨_, rfl⟩
          · exact ⟨_, rfl⟩)
        (by simp)
      exact h
    · cases tag <;> rfl
  · constructor
    · have h := jsonLoads_dumps_strObj
        [(("step"), .str tag.toStr), (("content"), .str c), (("input"), .str iv)]
        (by
          intro p hp
          simp at hp
          rcases hp with rfl | rfl | rfl
          · exact ⟨_, rfl⟩
          · exact ⟨_, rfl⟩
          · exact ⟨_, rfl⟩)
        (by simp)
      exact h
    · cases tag <;> rfl
  · constructor
    · have h := jsonLoads_dumps_strObj
        [(("step"), .str tag.toStr), (("content"), .str c), (("function"), .str fv)]
        (by
          intro p hp
          simp at hp
          rcases hp with rfl | rfl | rfl
          · exact ⟨_, rfl⟩
          · exact ⟨_, rfl⟩
          · exact ⟨_, rfl⟩)
        (by simp)
      exact h
    · cases tag <;> rfl
  · constructor
    · have h := jsonLoads_dumps_strObj
        [(("step"), .str tag.toStr), (("content"), .str c), (("function"), .str fv),
         (("input"), .str iv)]
        (by
          intro p hp
          simp at hp
          rcases hp with rfl | rfl | rfl | rfl
          · exact ⟨_, rfl⟩
          · exact ⟨_, rfl⟩
          · exact ⟨_, rfl⟩
          · exact ⟨_, rfl⟩)
        (by simp)
      exact h
    · cases tag <;> rfl

end Agent
